import Mathlib

/-!
Verification of the rate-limiting backends of `actix-extensible-rate-limit`.

The development shallowly embeds the library's fixed-window rate limiter:

* `InMemoryBackend.request` / `rollback` / `removeKey` model
  `src/backend/memory.rs`.  The `DashMap<String, Value>` is embedded as a
  total function `String → Option Value`; `Instant` and `Duration` are
  embedded as `Nat` nanosecond counts, with `Instant::checked_add`
  modelled by an explicit representability bound `instantMax` (the source
  panics via `.expect` when `checked_add` returns `None`; a panic is
  modelled by `Option.none`).  `u64` counters are embedded as `Nat`
  (`saturating_sub` is `Nat` subtraction).
* `SimpleOutput.secondsUntilReset` models
  `SimpleOutput::seconds_until_reset` in `src/backend/mod.rs`.
* `RedisBackend.request` models the response handling of
  `src/backend/redis.rs`, parameterised by the outcome of the single
  atomic pipeline round trip.
* `ipKey` models `ip_key` of `src/backend/input_builder.rs`, together
  with a faithful embedding of the Rust standard library's textual
  `IpAddr` parser and the `Ipv4Addr`/`Ipv6Addr` display rendering used
  by that function.
-/

/-- `std::convert::Infallible`: the uninhabited error type of the
in-memory backend. -/
def Infallible : Type := Empty

/-- `SimpleInput` from `src/backend/mod.rs`: the rate-limit interval (in
nanoseconds), the maximum requests allowed in the interval, and the
rate-limit key. -/
structure SimpleInput where
  interval : Nat
  maxRequests : Nat
  key : String

/-- The in-memory backend's map value (`struct Value` in
`src/backend/memory.rs`): bucket expiry instant and request count. -/
structure Value where
  ttl : Nat
  count : Nat
deriving DecidableEq

/-- The `DashMap<String, Value>` of the in-memory backend, embedded as a
total function to optional buckets. -/
def BucketMap : Type := String → Option Value

/-- Point update of a `BucketMap` (insert, overwrite or remove a key). -/
def BucketMap.update (m : BucketMap) (k : String) (v : Option Value) : BucketMap :=
  fun q => if q = k then v else m q

/-- `SimpleOutput` from `src/backend/mod.rs`. -/
structure SimpleOutput where
  limit : Nat
  remaining : Nat
  reset : Nat
deriving DecidableEq

/-- The `Decision` enumeration from `src/backend/mod.rs`. -/
inductive Decision where
  | Allowed
  | Denied
deriving DecidableEq

/-- `Decision::from_allowed`. -/
def Decision.fromAllowed (b : Bool) : Decision :=
  if b then .Allowed else .Denied

/-- `Decision::is_allowed`. -/
def Decision.isAllowed : Decision → Bool
  | .Allowed => true
  | .Denied => false

/-- `Instant::checked_add`: the sum of an instant and a duration when it
is representable (at most `instantMax`), `none` otherwise. -/
def instantCheckedAdd (instantMax now d : Nat) : Option Nat :=
  if now + d ≤ instantMax then some (now + d) else none

/-- The tuple returned by a successful `InMemoryBackend::request`, plus
the post-call state of the map. -/
structure RequestResult where
  decision : Decision
  output : SimpleOutput
  token : String
  map : BucketMap

/-- `InMemoryBackend::request` from `src/backend/memory.rs`.  The outer
`Option` models the panic of `.expect("Interval unexpectedly large")`
when `Instant::checked_add` overflows; the `Except Infallible` layer is
the declared `Result<_, Infallible>`.  The `DashMap::entry` /
`and_modify` / `or_insert_with` combination is embedded as a match on
the current bucket. -/
def InMemoryBackend.request (instantMax : Nat) (m : BucketMap) (input : SimpleInput)
    (now : Nat) : Option (Except Infallible RequestResult) :=
  match instantCheckedAdd instantMax now input.interval with
  | none => none
  | some freshExpiry =>
    let st : Nat × Nat × BucketMap :=
      match m input.key with
      | some v =>
        if now < v.ttl then
          (v.count + 1, v.ttl, m.update input.key (some ⟨v.ttl, v.count + 1⟩))
        else
          (1, freshExpiry, m.update input.key (some ⟨freshExpiry, 1⟩))
      | none => (1, freshExpiry, m.update input.key (some ⟨freshExpiry, 1⟩))
    some (Except.ok
      { decision := Decision.fromAllowed (decide (st.1 ≤ input.maxRequests))
        output :=
          { limit := input.maxRequests
            remaining := input.maxRequests - st.1
            reset := st.2.1 }
        token := input.key
        map := st.2.2 })

/-- `InMemoryBackend::rollback` from `src/backend/memory.rs`:
`entry(token).and_modify(|v| v.count = v.count.saturating_sub(1))`. -/
def InMemoryBackend.rollback (m : BucketMap) (token : String) :
    Except Infallible BucketMap :=
  Except.ok
    (match m token with
     | some v => m.update token (some ⟨v.ttl, v.count - 1⟩)
     | none => m)

/-- `InMemoryBackend::remove_key` from `src/backend/memory.rs`. -/
def InMemoryBackend.removeKey (m : BucketMap) (k : String) :
    Except Infallible BucketMap :=
  Except.ok (m.update k none)

/-- Run a computation whose error type is uninhabited. -/
def runInfallible {α : Type} : Except Infallible α → α
  | .ok a => a
  | .error e => e.elim

/-- The map state after `n` successive `InMemoryBackend::request` calls
with the same input, the `j`-th call (0-indexed) happening at time
`t j`.  `none` as soon as one call panics. -/
def seqState (instantMax : Nat) (input : SimpleInput) (t : Nat → Nat) (m0 : BucketMap) :
    Nat → Option BucketMap
  | 0 => some m0
  | n + 1 =>
    match seqState instantMax input t m0 n with
    | some m =>
      (InMemoryBackend.request instantMax m input (t n)).map
        (fun r => (runInfallible r).map)
    | none => none

/-- The result observed by the `n`-th (0-indexed) of the successive
`InMemoryBackend::request` calls described by `seqState`. -/
def seqCall (instantMax : Nat) (input : SimpleInput) (t : Nat → Nat) (m0 : BucketMap)
    (n : Nat) : Option RequestResult :=
  match seqState instantMax input t m0 n with
  | some m => (InMemoryBackend.request instantMax m input (t n)).map runInfallible
  | none => none

/-- `Duration::as_millis` of the `Instant::saturating_duration_since`
between two instants measured in nanoseconds. -/
def millisBetween (reset now : Nat) : Nat :=
  (reset - now) / 1000000

/-- `SimpleOutput::seconds_until_reset` from `src/backend/mod.rs`:
the saturating duration until `reset`, as whole milliseconds, divided by
1000 and rounded up.  The source computes `(millis / 1000f64).ceil()`
in `f64`; that computation is exact for every duration below `2^52`
milliseconds and is embedded as exact ceiling division on `Nat`. -/
def SimpleOutput.secondsUntilReset (o : SimpleOutput) (now : Nat) : Nat :=
  (millisBetween o.reset now + 999) / 1000

/-- The spawned garbage-collection task of the in-memory backend
(`InMemoryBackend::garbage_collector`): retained here as the sweep
period it was started with. -/
structure GcTask where
  interval : Nat

/-- `InMemoryBackend::garbage_collector` from `src/backend/memory.rs`.
Its first statement is `assert!(interval.as_secs_f64() > 0f64)`, which
fails exactly when the `Duration` is zero (zero nanoseconds); the panic
of a failed assertion is modelled by `none`, and on success the sweep
task is spawned. -/
def InMemoryBackend.garbageCollector (intervalNanos : Nat) : Option GcTask :=
  if 0 < intervalNanos then some ⟨intervalNanos⟩ else none

/-- The constructed `InMemoryBackend`: the (initially empty) map and the
optional garbage-collection task handle. -/
structure InMemoryBackendState where
  map : BucketMap
  gcHandle : Option GcTask

/-- `Builder::build` from `src/backend/memory.rs`: starts a garbage
collector when a sweep interval is configured (`none` disables it).
The outer `Option` models the assertion panic inside
`garbage_collector`. -/
def InMemoryBackend.build (gcInterval : Option Nat) : Option InMemoryBackendState :=
  match gcInterval with
  | none => some { map := fun _ => none, gcHandle := none }
  | some d =>
    (InMemoryBackend.garbageCollector d).map
      (fun task => { map := fun _ => none, gcHandle := some task })

/-- Stand-in for `redis::RedisError`: an opaque transport/connectivity
error raised by the Redis connection. -/
structure RedisTransportError where
  message : String
deriving DecidableEq

/-- The `Error` enum of `src/backend/redis.rs`: either a propagated
transport error or the `NegativeTtl` protocol violation. -/
inductive RedisError where
  | Redis (e : RedisTransportError)
  | NegativeTtl
deriving DecidableEq

/-- The value produced by the single atomic Redis pipeline issued by
`RedisBackend::request`: the list returned by `BITFIELD` (the
incremented counter) and the reply of `TTL` (an integer, negative when
the key is missing or has no expiry). -/
structure PipelineResponse where
  counts : List Nat
  ttl : Int

/-- `RedisBackend::request` from `src/backend/redis.rs`, parameterised
by the outcome `resp` of its one atomic pipeline round trip (the
function performs exactly one query and never retries).  A transport
failure is propagated as `Error::Redis`; a negative TTL reply is the
`Error::NegativeTtl` protocol violation; the outer `Option` models the
panic of `.expect("BITFIELD should return one value")`. -/
def RedisBackend.request (input : SimpleInput)
    (resp : Except RedisTransportError PipelineResponse) (now : Nat) :
    Option (Except RedisError (Decision × SimpleOutput × String)) :=
  match resp with
  | .error e => some (.error (.Redis e))
  | .ok pr =>
    if pr.ttl < 0 then
      some (.error .NegativeTtl)
    else
      match pr.counts.head? with
      | none => none
      | some count =>
        some (.ok
          (Decision.fromAllowed (decide (count ≤ input.maxRequests)),
           { limit := input.maxRequests
             remaining := input.maxRequests - count
             reset := now + 1000000000 * pr.ttl.toNat },
           input.key))

/-- `char::to_digit` for the radixes used by the address parser. -/
def charToDigit (radix : Nat) (c : Char) : Option Nat :=
  let d : Option Nat :=
    if '0' ≤ c ∧ c ≤ '9' then some (c.toNat - Char.toNat '0')
    else if 'a' ≤ c ∧ c ≤ 'z' then some (c.toNat - Char.toNat 'a' + 10)
    else if 'A' ≤ c ∧ c ≤ 'Z' then some (c.toNat - Char.toNat 'A' + 10)
    else none
  match d with
  | some v => if v < radix then some v else none
  | none => none

/-- The digit-reading loop of `Parser::read_number` in the Rust standard
library's `core::net::parser` (reached through
`ip_str.parse::<IpAddr>()`): consumes digits while accumulating
`acc * radix + digit` with checked arithmetic against the integer
type's maximum `maxVal`, failing (`none`) on overflow or when more than
`maxDigits` digits appear; returns the value, the digit count and the
remaining input. -/
def readDigits (radix maxVal : Nat) (maxDigits : Option Nat) :
    Nat → Nat → List Char → Option (Nat × Nat × List Char)
  | acc, cnt, [] => some (acc, cnt, [])
  | acc, cnt, c :: rest =>
    match charToDigit radix c with
    | none => some (acc, cnt, c :: rest)
    | some d =>
      if maxVal < acc * radix + d then none
      else
        match maxDigits with
        | some md =>
          if md < cnt + 1 then none
          else readDigits radix maxVal maxDigits (acc * radix + d) (cnt + 1) rest
        | none => readDigits radix maxVal maxDigits (acc * radix + d) (cnt + 1) rest

/-- `Parser::read_number`: at least one digit, and a leading zero is
rejected (unless `allowZeroPrefix`) when more than one digit follows. -/
def readNumber (radix maxVal : Nat) (maxDigits : Option Nat) (allowZeroPrefix : Bool)
    (s : List Char) : Option (Nat × List Char) :=
  let hasLeadingZero : Bool := match s with | '0' :: _ => true | _ => false
  match readDigits radix maxVal maxDigits 0 0 s with
  | none => none
  | some (res, cnt, rest) =>
    if cnt = 0 then none
    else if allowZeroPrefix = false ∧ hasLeadingZero = true ∧ 1 < cnt then none
    else some (res, rest)

/-- `Parser::read_given_char`. -/
def readGivenChar (target : Char) : List Char → Option (Unit × List Char)
  | c :: rest => if c = target then some ((), rest) else none
  | [] => none

/-- `Ipv4Addr`, as its four octets. -/
structure Ipv4Addr where
  a : Nat
  b : Nat
  c : Nat
  d : Nat
deriving DecidableEq

/-- One octet of a dotted-decimal IPv4 address:
`read_separator('.', i, read_number(10, Some(3), false))`. -/
def readOctet (isFirst : Bool) (s : List Char) : Option (Nat × List Char) :=
  if isFirst then readNumber 10 255 (some 3) false s
  else
    match readGivenChar '.' s with
    | none => none
    | some (_, r) => readNumber 10 255 (some 3) false r

/-- `Parser::read_ipv4_addr`: four dot-separated decimal octets, each at
most three digits, no leading zeros, value at most 255. -/
def readIpv4Addr (s : List Char) : Option (Ipv4Addr × List Char) :=
  match readOctet true s with
  | none => none
  | some (x1, r1) =>
  match readOctet false r1 with
  | none => none
  | some (x2, r2) =>
  match readOctet false r2 with
  | none => none
  | some (x3, r3) =>
  match readOctet false r3 with
  | none => none
  | some (x4, r4) => some (⟨x1, x2, x3, x4⟩, r4)

/-- `Ipv6Addr`, as its eight 16-bit segments. -/
structure Ipv6Addr where
  s0 : Nat
  s1 : Nat
  s2 : Nat
  s3 : Nat
  s4 : Nat
  s5 : Nat
  s6 : Nat
  s7 : Nat
deriving DecidableEq

/-- The `read_groups` helper of `Parser::read_ipv6_addr`: reads up to
`limit` colon-separated 16-bit hexadecimal groups (leading zeros
allowed, at most four digits), attempting an embedded dotted IPv4
address whenever at least two group slots remain; returns the group
values, whether an embedded IPv4 address ended the run, and the
remaining input. -/
def readGroups (limit : Nat) (isFirst : Bool) (s : List Char) :
    List Nat × Bool × List Char :=
  match limit with
  | 0 => ([], false, s)
  | limitMinus1 + 1 =>
    let ipv4Attempt : Option (Ipv4Addr × List Char) :=
      if 1 ≤ limitMinus1 then
        (if isFirst then readIpv4Addr s
         else
           match readGivenChar ':' s with
           | none => none
           | some (_, r) => readIpv4Addr r)
      else none
    match ipv4Attempt with
    | some (v4, rest) => ([v4.a * 256 + v4.b, v4.c * 256 + v4.d], true, rest)
    | none =>
      let groupAttempt : Option (Nat × List Char) :=
        if isFirst then readNumber 16 65535 (some 4) true s
        else
          match readGivenChar ':' s with
          | none => none
          | some (_, r) => readNumber 16 65535 (some 4) true r
      match groupAttempt with
      | some (g, rest) =>
        let next := readGroups limitMinus1 false rest
        (g :: next.1, next.2.1, next.2.2)
      | none => ([], false, s)

/-- Assemble a full list of eight groups into an `Ipv6Addr` (the final
arm is unreachable on the lists this development builds). -/
def listToIpv6 (gs : List Nat) : Ipv6Addr :=
  match gs with
  | [g0, g1, g2, g3, g4, g5, g6, g7] => ⟨g0, g1, g2, g3, g4, g5, g6, g7⟩
  | _ => ⟨0, 0, 0, 0, 0, 0, 0, 0⟩

/-- `Parser::read_ipv6_addr`: a head run of groups; if fewer than eight,
the head must not end in an embedded IPv4 address, a literal `::`
follows, and a tail run of at most `8 - (head + 1)` groups completes
the address, right-aligned, with zero groups in between. -/
def readIpv6Addr (s : List Char) : Option (Ipv6Addr × List Char) :=
  let headRun := readGroups 8 true s
  let head := headRun.1
  if head.length = 8 then some (listToIpv6 head, headRun.2.2)
  else if headRun.2.1 then none
  else
    match readGivenChar ':' headRun.2.2 with
    | none => none
    | some (_, r2) =>
    match readGivenChar ':' r2 with
    | none => none
    | some (_, r3) =>
      let tailRun := readGroups (8 - (head.length + 1)) true r3
      let tail := tailRun.1
      some (listToIpv6 (head ++ List.replicate (8 - head.length - tail.length) 0 ++ tail),
        tailRun.2.2)

/-- `std::net::IpAddr`. -/
inductive IpAddr where
  | V4 (v4 : Ipv4Addr)
  | V6 (v6 : Ipv6Addr)
deriving DecidableEq

/-- `ip_str.parse::<IpAddr>()`: the IPv4 grammar is tried first, then
IPv6, and the entire string must be consumed. -/
def parseIpAddr (s : String) : Option IpAddr :=
  match readIpv4Addr s.data with
  | some (v4, rest) => if rest = [] then some (.V4 v4) else none
  | none =>
    match readIpv6Addr s.data with
    | some (v6, rest) => if rest = [] then some (.V6 v6) else none
    | none => none

/-- Lowercase hexadecimal rendering of a group (Rust's `{:x}`). -/
def hexString (n : Nat) : String :=
  (Nat.toDigits 16 n).asString

/-- `Ipv4Addr`'s `Display`: dotted decimal. -/
def Ipv4Addr.display (v : Ipv4Addr) : String :=
  toString v.a ++ "." ++ toString v.b ++ "." ++ toString v.c ++ "." ++ toString v.d

/-- `Ipv6Addr::segments`. -/
def Ipv6Addr.segments (v : Ipv6Addr) : List Nat :=
  [v.s0, v.s1, v.s2, v.s3, v.s4, v.s5, v.s6, v.s7]

/-- `Ipv6Addr::to_ipv4`: converts both IPv4-compatible (`::a.b.c.d`)
and IPv4-mapped (`::ffff:a.b.c.d`) addresses. -/
def Ipv6Addr.toIpv4 (v : Ipv6Addr) : Option Ipv4Addr :=
  if v.s0 = 0 ∧ v.s1 = 0 ∧ v.s2 = 0 ∧ v.s3 = 0 ∧ v.s4 = 0 ∧ (v.s5 = 0 ∨ v.s5 = 65535) then
    some ⟨v.s6 / 256, v.s6 % 256, v.s7 / 256, v.s7 % 256⟩
  else none

/-- `Ipv6Addr::to_ipv4_mapped`: converts only `::ffff:a.b.c.d`. -/
def Ipv6Addr.toIpv4Mapped (v : Ipv6Addr) : Option Ipv4Addr :=
  if v.s0 = 0 ∧ v.s1 = 0 ∧ v.s2 = 0 ∧ v.s3 = 0 ∧ v.s4 = 0 ∧ v.s5 = 65535 then
    some ⟨v.s6 / 256, v.s6 % 256, v.s7 / 256, v.s7 % 256⟩
  else none

/-- The zero-span search of `Ipv6Addr`'s `Display`: the longest
(leftmost on ties) run of zero groups, as `(start, length)`. -/
def longestZeroRun (segs : List Nat) : Nat × Nat :=
  let final := segs.foldl
    (fun (st : Nat × Nat × Nat × Nat × Nat) seg =>
      let i := st.1
      let curStart := st.2.1
      let curLen := st.2.2.1
      let bestStart := st.2.2.2.1
      let bestLen := st.2.2.2.2
      if seg = 0 then
        let cs := if curLen = 0 then i else curStart
        if bestLen < curLen + 1 then (i + 1, cs, curLen + 1, cs, curLen + 1)
        else (i + 1, cs, curLen + 1, bestStart, bestLen)
      else (i + 1, 0, 0, bestStart, bestLen))
    (0, 0, 0, 0, 0)
  (final.2.2.2.1, final.2.2.2.2)

/-- `fmt_subslice`: hexadecimal groups joined by `:`. -/
def fmtSubslice (gs : List Nat) : String :=
  String.intercalate ":" (gs.map hexString)

/-- `Ipv6Addr`'s `Display`: an IPv4-mapped address prints as
`::ffff:a.b.c.d`; otherwise the longest zero run of length at least two
is compressed to `::`. -/
def Ipv6Addr.display (v : Ipv6Addr) : String :=
  match v.toIpv4Mapped with
  | some v4 => "::ffff:" ++ v4.display
  | none =>
    let segs := v.segments
    let run := longestZeroRun segs
    if 1 < run.2 then
      fmtSubslice (segs.take run.1) ++ "::" ++ fmtSubslice (segs.drop (run.1 + run.2))
    else fmtSubslice segs

/-- The error enum of `src/backend/input_builder.rs`. -/
inductive InputBuilderError where
  | InvalidIpError
deriving DecidableEq

/-- The match arms of `ip_key` after parsing: IPv4 addresses (and IPv6
addresses convertible by `to_ipv4`) in dotted decimal; any other IPv6
address rendered as its `/64` network, obtained by keeping the first
four segments and zeroing the rest. -/
def ipKeyOfAddr : IpAddr → String
  | .V4 v4 => v4.display
  | .V6 v6 =>
    match v6.toIpv4 with
    | some v4 => v4.display
    | none =>
      let subnet : Ipv6Addr := ⟨v6.s0, v6.s1, v6.s2, v6.s3, 0, 0, 0, 0⟩
      subnet.display ++ "/64"

deriving instance DecidableEq for Except

/-- `ip_key` from `src/backend/input_builder.rs`. -/
def ipKey (s : String) : Except InputBuilderError String :=
  match parseIpAddr s with
  | some ip => .ok (ipKeyOfAddr ip)
  | none => .error .InvalidIpError

/-- The empty bucket map: the state of a freshly built in-memory
backend. -/
def emptyBucketMap : BucketMap := fun _ => none

/-- A first-window request at time 0 on key `"k"` (interval 10,
`max_requests` 5), recording the post-call state. -/
def cexMap1 : BucketMap :=
  match InMemoryBackend.request 1000 emptyBucketMap ⟨10, 5, "k"⟩ 0 with
  | some (.ok r) => r.map
  | _ => emptyBucketMap

/-- A second request on `"k"` at time 20: the first window (expiry 10)
has elapsed, so this starts a new window with count 1 and expiry 30. -/
def cexMap2 : BucketMap :=
  match InMemoryBackend.request 1000 cexMap1 ⟨10, 5, "k"⟩ 20 with
  | some (.ok r) => r.map
  | _ => cexMap1

/-- Rolling back the token `"k"` obtained from the FIRST window against
the state holding the second window's bucket. -/
def cexMap3 : BucketMap := runInfallible (InMemoryBackend.rollback cexMap2 "k")

/-- The result of a first-ever request on key `"k"` with interval 10 and
`max_requests` 5, at time 0 against the bound 100. -/
def sampleRequestResult : RequestResult :=
  { decision := Decision.fromAllowed (decide (1 ≤ 5))
    output := { limit := 5, remaining := 4, reset := 10 }
    token := "k"
    map := emptyBucketMap.update "k" (some ⟨10, 1⟩) }


theorem fromAllowed_eq_allowed_iff (p : Prop) [inst : Decidable p] :
    Decision.fromAllowed (decide p) = .Allowed ↔ p := by
  by_cases h : p <;> simp [Decision.fromAllowed, h]

theorem parseIpAddr_model_checks :
    parseIpAddr "256.1.1.1" = none ∧
    parseIpAddr "01.1.1.1" = none ∧
    parseIpAddr "1.2.3.4.5" = none ∧
    parseIpAddr "1:2:3:4:5:6:7:8" = some (.V6 ⟨1, 2, 3, 4, 5, 6, 7, 8⟩) ∧
    parseIpAddr "::" = some (.V6 ⟨0, 0, 0, 0, 0, 0, 0, 0⟩) ∧
    parseIpAddr "1::2:3" = some (.V6 ⟨1, 0, 0, 0, 0, 0, 2, 3⟩) ∧
    parseIpAddr "1:2:3:4:5:6:7.8.9.10" =
      some (.V6 ⟨1, 2, 3, 4, 5, 6, 7 * 256 + 8, 9 * 256 + 10⟩) ∧
    parseIpAddr "1:2:3:4:5:6:7:8:9" = none ∧
    parseIpAddr "1:::2" = none := by
  decide

theorem bucketMap_update_same (m : BucketMap) (k : String) (v : Option Value) :
    m.update k v k = v := by
  simp [BucketMap.update]

theorem bucketMap_update_other (m : BucketMap) (k : String) (v : Option Value)
    (q : String) (hq : q ≠ k) : m.update k v q = m q := by
  simp [BucketMap.update, hq]

theorem request_missing (instantMax : Nat) (m : BucketMap) (input : SimpleInput)
    (now : Nat) (hrep : now + input.interval ≤ instantMax)
    (hk : m input.key = none) :
    InMemoryBackend.request instantMax m input now =
      some (Except.ok
        { decision := Decision.fromAllowed (decide (1 ≤ input.maxRequests))
          output :=
            { limit := input.maxRequests
              remaining := input.maxRequests - 1
              reset := now + input.interval }
          token := input.key
          map := m.update input.key (some ⟨now + input.interval, 1⟩) }) := by
  simp [InMemoryBackend.request, instantCheckedAdd, hrep, hk]

theorem request_active (instantMax : Nat) (m : BucketMap) (input : SimpleInput)
    (now : Nat) (v : Value) (hrep : now + input.interval ≤ instantMax)
    (hk : m input.key = some v) (hv : now < v.ttl) :
    InMemoryBackend.request instantMax m input now =
      some (Except.ok
        { decision := Decision.fromAllowed (decide (v.count + 1 ≤ input.maxRequests))
          output :=
            { limit := input.maxRequests
              remaining := input.maxRequests - (v.count + 1)
              reset := v.ttl }
          token := input.key
          map := m.update input.key (some ⟨v.ttl, v.count + 1⟩) }) := by
  simp [InMemoryBackend.request, instantCheckedAdd, hrep, hk, hv]

theorem request_expired (instantMax : Nat) (m : BucketMap) (input : SimpleInput)
    (now : Nat) (v : Value) (hrep : now + input.interval ≤ instantMax)
    (hk : m input.key = some v) (hv : v.ttl ≤ now) :
    InMemoryBackend.request instantMax m input now =
      some (Except.ok
        { decision := Decision.fromAllowed (decide (1 ≤ input.maxRequests))
          output :=
            { limit := input.maxRequests
              remaining := input.maxRequests - 1
              reset := now + input.interval }
          token := input.key
          map := m.update input.key (some ⟨now + input.interval, 1⟩) }) := by
  simp [InMemoryBackend.request, instantCheckedAdd, hrep, hk, Nat.not_lt.mpr hv]

theorem seqState_succ (instantMax : Nat) (input : SimpleInput) (t : Nat → Nat)
    (m0 : BucketMap) (n : Nat) :
    seqState instantMax input t m0 (n + 1) =
      match seqState instantMax input t m0 n with
      | some m =>
        (InMemoryBackend.request instantMax m input (t n)).map
          (fun r => (runInfallible r).map)
      | none => none := rfl

theorem seqState_bucket (instantMax : Nat) (input : SimpleInput) (t : Nat → Nat)
    (m0 : BucketMap) (N : Nat)
    (h0 : m0 input.key = none)
    (hb : ∀ j, j < N → t j + input.interval ≤ instantMax)
    (hw : ∀ j, 1 ≤ j → j < N → t j < t 0 + input.interval) :
    ∀ n, n ≤ N → 1 ≤ n → ∃ m, seqState instantMax input t m0 n = some m ∧
      m input.key = some ⟨t 0 + input.interval, n⟩ := by
  intro n
  induction n with
  | zero => intro _ h1; omega
  | succ k ih =>
    intro hkN _
    match k, ih with
    | 0, _ =>
      refine ⟨m0.update input.key (some ⟨t 0 + input.interval, 1⟩), ?_, ?_⟩
      · rw [seqState_succ]
        have hreq := request_missing instantMax m0 input (t 0) (hb 0 (by omega)) h0
        have h00 : seqState instantMax input t m0 0 = some m0 := rfl
        rw [h00]
        simp [hreq, runInfallible]
      · exact bucketMap_update_same m0 input.key _
    | k' + 1, ih =>
      obtain ⟨m, hm, hmk⟩ := ih (by omega) (by omega)
      refine ⟨m.update input.key (some ⟨t 0 + input.interval, k' + 2⟩), ?_, ?_⟩
      · have hact := request_active instantMax m input (t (k' + 1))
          ⟨t 0 + input.interval, k' + 1⟩ (hb (k' + 1) (by omega)) hmk
          (hw (k' + 1) (by omega) (by omega))
        rw [seqState_succ, hm]
        simp [hact, runInfallible]
      · exact bucketMap_update_same m input.key _

/-- C1: `InMemoryBackend::request` implements the fixed-window
algorithm: a missing bucket is created as `{count 1, expiry now +
interval}`; an unexpired bucket is incremented by exactly one with its
expiry unchanged; an expired bucket is replaced by `{count 1, expiry
now + interval}`; the decision is `Allowed` iff the post-increment
count is at most `max_requests` and `remaining = max_requests -
min(max_requests, count)`; consequently, over any sequence of requests
on one key with no intervening expiry, the i-th call (1-indexed)
observes count `i` and is allowed iff `i ≤ max_requests`. -/
theorem inMemory_request_fixed_window :
    (∀ (instantMax : Nat) (m : BucketMap) (input : SimpleInput) (now : Nat),
      now + input.interval ≤ instantMax →
      ∃ r : RequestResult,
        InMemoryBackend.request instantMax m input now = some (Except.ok r) ∧
        r.token = input.key ∧
        r.output.limit = input.maxRequests ∧
        (∀ q, q ≠ input.key → r.map q = m q) ∧
        ∃ c : Nat, r.map input.key = some ⟨r.output.reset, c⟩ ∧
          r.output.remaining = input.maxRequests - min input.maxRequests c ∧
          (r.decision = .Allowed ↔ c ≤ input.maxRequests) ∧
          (m input.key = none → c = 1 ∧ r.output.reset = now + input.interval) ∧
          (∀ v, m input.key = some v → now < v.ttl →
            c = v.count + 1 ∧ r.output.reset = v.ttl) ∧
          (∀ v, m input.key = some v → v.ttl ≤ now →
            c = 1 ∧ r.output.reset = now + input.interval)) ∧
    (∀ (instantMax : Nat) (input : SimpleInput) (t : Nat → Nat) (m0 : BucketMap)
      (N : Nat),
      m0 input.key = none →
      (∀ j, j < N → t j + input.interval ≤ instantMax) →
      (∀ j, 1 ≤ j → j < N → t j < t 0 + input.interval) →
      ∀ i, i < N → ∃ r : RequestResult,
        seqCall instantMax input t m0 i = some r ∧
        r.map input.key = some ⟨t 0 + input.interval, i + 1⟩ ∧
        r.output.remaining = input.maxRequests - (i + 1) ∧
        (r.decision = .Allowed ↔ i + 1 ≤ input.maxRequests)) := by
  constructor
  · intro iM m input now hrep
    cases hE : m input.key with
    | none =>
      refine ⟨_, request_missing iM m input now hrep hE, rfl, rfl,
        fun q hq => bucketMap_update_other m input.key _ q hq, 1,
        bucketMap_update_same m input.key _, by simp; omega,
        fromAllowed_eq_allowed_iff _, fun _ => ⟨rfl, rfl⟩, ?_, ?_⟩
      · intro v hv
        exact Option.noConfusion hv
      · intro v hv
        exact Option.noConfusion hv
    | some v =>
      by_cases hv : now < v.ttl
      · refine ⟨_, request_active iM m input now v hrep hE hv, rfl, rfl,
          fun q hq => bucketMap_update_other m input.key _ q hq, v.count + 1,
          bucketMap_update_same m input.key _, by simp; omega,
          fromAllowed_eq_allowed_iff _, ?_, ?_, ?_⟩
        · intro habs
          exact Option.noConfusion habs
        · intro w hw _
          cases hw
          exact ⟨rfl, rfl⟩
        · intro w hw hwttl
          cases hw
          exact ((Nat.not_lt.mpr hwttl) hv).elim
      · have hge : v.ttl ≤ now := Nat.not_lt.mp hv
        refine ⟨_, request_expired iM m input now v hrep hE hge, rfl, rfl,
          fun q hq => bucketMap_update_other m input.key _ q hq, 1,
          bucketMap_update_same m input.key _, by simp; omega,
          fromAllowed_eq_allowed_iff _, ?_, ?_, ?_⟩
        · intro habs
          exact Option.noConfusion habs
        · intro w hw hwttl
          cases hw
          exact ((Nat.not_lt.mpr hge) hwttl).elim
        · intro w hw _
          cases hw
          exact ⟨rfl, rfl⟩
  · intro iM input t m0 N h0 hb hw i hiN
    match i with
    | 0 =>
      have hreq := request_missing iM m0 input (t 0) (hb 0 hiN) h0
      have hcall : seqCall iM input t m0 0 =
          some { decision := Decision.fromAllowed (decide (1 ≤ input.maxRequests))
                 output :=
                   { limit := input.maxRequests
                     remaining := input.maxRequests - 1
                     reset := t 0 + input.interval }
                 token := input.key
                 map := m0.update input.key (some ⟨t 0 + input.interval, 1⟩) } := by
        unfold seqCall
        rw [show seqState iM input t m0 0 = some m0 from rfl]
        simp [hreq, runInfallible]
      exact ⟨_, hcall, bucketMap_update_same m0 input.key _, rfl,
        fromAllowed_eq_allowed_iff _⟩
    | i' + 1 =>
      obtain ⟨m, hm, hmk⟩ := seqState_bucket iM input t m0 N h0 hb hw (i' + 1)
        (by omega) (by omega)
      have hact := request_active iM m input (t (i' + 1))
        ⟨t 0 + input.interval, i' + 1⟩ (hb _ hiN) hmk (hw _ (by omega) hiN)
      have hcall : seqCall iM input t m0 (i' + 1) =
          some { decision := Decision.fromAllowed (decide (i' + 1 + 1 ≤ input.maxRequests))
                 output :=
                   { limit := input.maxRequests
                     remaining := input.maxRequests - (i' + 1 + 1)
                     reset := t 0 + input.interval }
                 token := input.key
                 map := m.update input.key (some ⟨t 0 + input.interval, i' + 1 + 1⟩) } := by
        unfold seqCall
        rw [hm]
        simp [hact, runInfallible]
      exact ⟨_, hcall, bucketMap_update_same m input.key _, rfl,
        fromAllowed_eq_allowed_iff _⟩

/-- Witness for C1: three calls on one key with `max_requests = 2`; the
third call observes count 3 and is denied. -/
theorem inMemory_request_fixed_window_witness :
    ∃ r : RequestResult,
      seqCall 100 ⟨10, 2, "k"⟩ (fun _ => 0) emptyBucketMap 2 = some r ∧
      r.map "k" = some ⟨10, 3⟩ ∧
      r.output.remaining = 0 ∧
      (r.decision = .Allowed ↔ 2 + 1 ≤ 2) := by
  have h := inMemory_request_fixed_window.2 100 ⟨10, 2, "k"⟩ (fun _ => 0) emptyBucketMap 3
    rfl (fun j _ => by norm_num) (fun j _ _ => by norm_num) 2 (by omega)
  simpa using h

theorem request_shape (instantMax : Nat) (m : BucketMap) (input : SimpleInput)
    (now : Nat) (r : RequestResult)
    (h : InMemoryBackend.request instantMax m input now = some (Except.ok r)) :
    r.token = input.key ∧ r.output.limit = input.maxRequests ∧
    ∃ c : Nat, 1 ≤ c ∧
      r.map input.key = some ⟨r.output.reset, c⟩ ∧
      r.output.remaining = input.maxRequests - c := by
  by_cases hrep : now + input.interval ≤ instantMax
  · cases hE : m input.key with
    | none =>
      rw [request_missing instantMax m input now hrep hE] at h
      simp only [Option.some.injEq, Except.ok.injEq] at h
      subst h
      exact ⟨rfl, rfl, 1, le_refl 1, bucketMap_update_same m input.key _, rfl⟩
    | some v =>
      by_cases hv : now < v.ttl
      · rw [request_active instantMax m input now v hrep hE hv] at h
        simp only [Option.some.injEq, Except.ok.injEq] at h
        subst h
        exact ⟨rfl, rfl, v.count + 1, by omega,
          bucketMap_update_same m input.key _, rfl⟩
      · rw [request_expired instantMax m input now v hrep hE (Nat.not_lt.mp hv)] at h
        simp only [Option.some.injEq, Except.ok.injEq] at h
        subst h
        exact ⟨rfl, rfl, 1, le_refl 1, bucketMap_update_same m input.key _, rfl⟩
  · exfalso
    unfold InMemoryBackend.request instantCheckedAdd at h
    rw [if_neg hrep] at h
    exact Option.noConfusion h

/-- C2 counterexample: `InMemoryBackend::rollback` checks no expiry at
all.  Reachable scenario: a request at time 0 opens window `[0,10)` on
key `"k"` and yields rollback token `"k"`; a request at time 20 rolls
the key over to a new window (count 1, expiry 30).  Rolling back the old
window's token then decrements the NEW window's bucket from count 1 to
count 0 — not a no-op, contradicting the claim.  Likewise, rolling back
a still-present but expired bucket (count 3, expiry 10) changes its
count to 2. -/
theorem rollback_stale_token_counterexample :
    cexMap2 "k" = some ⟨30, 1⟩ ∧
    cexMap3 "k" = some ⟨30, 0⟩ ∧
    runInfallible (InMemoryBackend.rollback
      (emptyBucketMap.update "k" (some ⟨10, 3⟩)) "k") "k" = some ⟨10, 2⟩ := by
  decide

/-- C2 amended: rollback on a MISSING key is a no-op (creates no bucket,
changes nothing); but whenever a bucket exists under the token key —
expired or belonging to a newer window alike — rollback decrements that
bucket's count by one (floored at zero), leaving its expiry unchanged;
other keys are never affected. -/
theorem rollback_noop_only_when_missing :
    (∀ (m : BucketMap) (tok : String), m tok = none →
      runInfallible (InMemoryBackend.rollback m tok) = m) ∧
    (∀ (m : BucketMap) (tok : String) (v : Value), m tok = some v →
      runInfallible (InMemoryBackend.rollback m tok) tok =
        some ⟨v.ttl, v.count - 1⟩) ∧
    (∀ (m : BucketMap) (tok q : String), q ≠ tok →
      runInfallible (InMemoryBackend.rollback m tok) q = m q) := by
  refine ⟨?_, ?_, ?_⟩
  · intro m tok hm
    unfold InMemoryBackend.rollback
    rw [hm]
    rfl
  · intro m tok v hm
    unfold InMemoryBackend.rollback
    rw [hm]
    exact bucketMap_update_same m tok _
  · intro m tok q hq
    unfold InMemoryBackend.rollback
    cases hm : m tok with
    | none => rfl
    | some v => exact bucketMap_update_other m tok _ q hq

/-- Witness for the amended C2 at concrete states. -/
theorem rollback_noop_only_when_missing_witness :
    runInfallible (InMemoryBackend.rollback emptyBucketMap "k") = emptyBucketMap ∧
    runInfallible (InMemoryBackend.rollback
      (emptyBucketMap.update "k" (some ⟨30, 1⟩)) "k") "k" = some ⟨30, 0⟩ :=
  ⟨rollback_noop_only_when_missing.1 emptyBucketMap "k" rfl,
   rollback_noop_only_when_missing.2.1 (emptyBucketMap.update "k" (some ⟨30, 1⟩))
     "k" ⟨30, 1⟩ (by decide)⟩

/-- C3: rollback on an existing bucket decrements its count by exactly
one, saturating at zero (never negative, stated over `Int`); every
`request` output satisfies `remaining ≤ limit`; and a rollback
performed immediately after a request restores `remaining`, as observed
by the next request in the same window, to the rolled-back request's
value. -/
theorem rollback_saturating_decrement :
    (∀ (m : BucketMap) (tok : String) (v : Value), m tok = some v →
      ∃ w : Value, runInfallible (InMemoryBackend.rollback m tok) tok = some w ∧
        w.ttl = v.ttl ∧ (w.count : Int) = max 0 ((v.count : Int) - 1)) ∧
    (∀ (instantMax : Nat) (m : BucketMap) (input : SimpleInput) (now : Nat)
      (r : RequestResult),
      InMemoryBackend.request instantMax m input now = some (Except.ok r) →
      r.output.remaining ≤ r.output.limit) ∧
    (∀ (instantMax : Nat) (m : BucketMap) (input : SimpleInput) (t1 t2 : Nat)
      (r1 : RequestResult),
      InMemoryBackend.request instantMax m input t1 = some (Except.ok r1) →
      t2 < r1.output.reset →
      t2 + input.interval ≤ instantMax →
      ∃ r2 : RequestResult,
        InMemoryBackend.request instantMax
          (runInfallible (InMemoryBackend.rollback r1.map r1.token)) input t2 =
          some (Except.ok r2) ∧
        r2.output.remaining = r1.output.remaining) := by
  refine ⟨?_, ?_, ?_⟩
  · intro m tok v hm
    refine ⟨⟨v.ttl, v.count - 1⟩, ?_, rfl, ?_⟩
    swap
    · show ((v.count - 1 : Nat) : Int) = max 0 ((v.count : Int) - 1)
      omega
    unfold InMemoryBackend.rollback
    rw [hm]
    exact bucketMap_update_same m tok _
  · intro iM m input now r h
    obtain ⟨-, hlim, c, -, -, hrem⟩ := request_shape iM m input now r h
    rw [hrem, hlim]
    omega
  · intro iM m input t1 t2 r1 h1 ht2 hrep2
    obtain ⟨htok, hlim, c, hc, hmap, hrem⟩ := request_shape iM m input t1 r1 h1
    have hroll : runInfallible (InMemoryBackend.rollback r1.map r1.token) input.key =
        some ⟨r1.output.reset, c - 1⟩ := by
      rw [htok]
      unfold InMemoryBackend.rollback
      rw [hmap]
      exact bucketMap_update_same r1.map input.key _
    have hact := request_active iM
      (runInfallible (InMemoryBackend.rollback r1.map r1.token)) input t2
      ⟨r1.output.reset, c - 1⟩ hrep2 hroll ht2
    refine ⟨_, hact, ?_⟩
    rw [hrem]
    simp only []
    omega

/-- Witness for C3: a request on a fresh key leaves `remaining = 4`;
after a rollback the next request again observes `remaining = 4`. -/
theorem rollback_saturating_decrement_witness :
    ∃ r2 : RequestResult,
      InMemoryBackend.request 1000
        (runInfallible (InMemoryBackend.rollback
          (emptyBucketMap.update "k" (some ⟨10, 1⟩)) "k")) ⟨10, 5, "k"⟩ 5 =
        some (Except.ok r2) ∧
      r2.output.remaining = 4 := by
  have h1 := request_missing 1000 emptyBucketMap ⟨10, 5, "k"⟩ 0 (by decide) rfl
  have h := rollback_saturating_decrement.2.2 1000 emptyBucketMap ⟨10, 5, "k"⟩ 0 5 _
    h1 (by decide) (by decide)
  simpa using h

/-- C4: the in-memory backend is infallible — its error type is
uninhabited, so `rollback` and `remove_key` always return `Ok`, and any
value `request` returns (it can panic, but cannot fail) is `Ok`. -/
theorem inMemory_infallible :
    (Infallible → False) ∧
    (∀ (m : BucketMap) (tok : String),
      ∃ m2, InMemoryBackend.rollback m tok = Except.ok m2) ∧
    (∀ (m : BucketMap) (k : String),
      ∃ m2, InMemoryBackend.removeKey m k = Except.ok m2) ∧
    (∀ (instantMax : Nat) (m : BucketMap) (input : SimpleInput) (now : Nat)
      (res : Except Infallible RequestResult),
      InMemoryBackend.request instantMax m input now = some res →
      ∃ r, res = Except.ok r) := by
  refine ⟨fun e => e.elim, fun m tok => ⟨_, rfl⟩, fun m k2 => ⟨_, rfl⟩, ?_⟩
  intro iM m input now res h
  unfold InMemoryBackend.request at h
  cases hE : instantCheckedAdd iM now input.interval with
  | none =>
    rw [hE] at h
    exact Option.noConfusion h
  | some freshExpiry =>
    rw [hE] at h
    simp only [Option.some.injEq] at h
    exact ⟨_, h.symm⟩

/-- Witness for C4 at concrete states. -/
theorem inMemory_infallible_witness :
    (∃ m2, InMemoryBackend.rollback emptyBucketMap "k" = Except.ok m2) ∧
    (∃ m2, InMemoryBackend.removeKey emptyBucketMap "k" = Except.ok m2) ∧
    (∃ r, (Except.ok sampleRequestResult : Except Infallible RequestResult) =
      Except.ok r) :=
  ⟨inMemory_infallible.2.1 emptyBucketMap "k",
   inMemory_infallible.2.2.1 emptyBucketMap "k",
   inMemory_infallible.2.2.2 100 emptyBucketMap ⟨10, 5, "k"⟩ 0
     (Except.ok sampleRequestResult)
     (request_missing 100 emptyBucketMap ⟨10, 5, "k"⟩ 0 (by decide) rfl)⟩

/-- C5: a negative TTL read from the store makes `RedisBackend::request`
return the `NegativeTtl` protocol-violation error (never success, never
a silent window reset), a transport failure is propagated unchanged as
the `Redis` variant with no retry (the model consumes exactly one
pipeline response), and the two error variants are distinct. -/
theorem redis_error_taxonomy :
    (∀ (input : SimpleInput) (pr : PipelineResponse) (now : Nat), pr.ttl < 0 →
      RedisBackend.request input (Except.ok pr) now =
        some (Except.error RedisError.NegativeTtl)) ∧
    (∀ (input : SimpleInput) (e : RedisTransportError) (now : Nat),
      RedisBackend.request input (Except.error e) now =
        some (Except.error (RedisError.Redis e))) ∧
    (∀ e : RedisTransportError, RedisError.NegativeTtl ≠ RedisError.Redis e) := by
  refine ⟨?_, fun input e now => rfl, fun e h => RedisError.noConfusion h⟩
  intro input pr now h
  simp only [RedisBackend.request]
  rw [if_pos h]

/-- Witness for C5: a TTL of -1 yields `NegativeTtl`. -/
theorem redis_error_taxonomy_witness :
    RedisBackend.request ⟨10, 5, "k"⟩ (Except.ok ⟨[3], -1⟩) 0 =
      some (Except.error RedisError.NegativeTtl) :=
  redis_error_taxonomy.1 ⟨10, 5, "k"⟩ ⟨[3], -1⟩ 0 (by decide)

/-- C7: `seconds_until_reset` is the remaining time rounded up to whole
seconds: it is 0 when the reset instant has passed, waiting that many
seconds always covers the remaining milliseconds, and no smaller number
of seconds does; sampled 29.9 seconds into a 60-second window started
by an actual request it reports 31, not 30. -/
theorem secondsUntilReset_ceiling :
    (∀ (o : SimpleOutput) (now : Nat),
      (o.reset ≤ now → o.secondsUntilReset now = 0) ∧
      millisBetween o.reset now ≤ 1000 * o.secondsUntilReset now ∧
      (∀ k : Nat, 1000 * k < millisBetween o.reset now →
        k < o.secondsUntilReset now)) ∧
    (∃ r : RequestResult,
      InMemoryBackend.request 3600000000000 emptyBucketMap ⟨60000000000, 2, "K"⟩ 0 =
        some (Except.ok r) ∧
      r.output.secondsUntilReset 29900000000 = 31) := by
  constructor
  · intro o now
    refine ⟨?_, ?_, ?_⟩
    · intro h
      unfold SimpleOutput.secondsUntilReset millisBetween
      rw [Nat.sub_eq_zero_of_le h]
    · unfold SimpleOutput.secondsUntilReset
      omega
    · intro k hk
      unfold SimpleOutput.secondsUntilReset
      omega
  · refine ⟨_, request_missing 3600000000000 emptyBucketMap ⟨60000000000, 2, "K"⟩ 0
      (by decide) rfl, ?_⟩
    decide

/-- Witness for C7 at concrete outputs: an elapsed reset reports 0, and
30100 remaining milliseconds report strictly more than 30 seconds. -/
theorem secondsUntilReset_ceiling_witness :
    SimpleOutput.secondsUntilReset ⟨2, 1, 5⟩ 7 = 0 ∧
    (30 : Nat) < SimpleOutput.secondsUntilReset ⟨2, 1, 30100000000⟩ 0 :=
  ⟨(secondsUntilReset_ceiling.1 ⟨2, 1, 5⟩ 7).1 (by decide),
   (secondsUntilReset_ceiling.1 ⟨2, 1, 30100000000⟩ 0).2.2 30 (by decide)⟩

/-- C8: `remove_key` unconditionally deletes the key's bucket (leaving
every other key untouched), and a request issued after it behaves
exactly like a first-ever request for that key: fresh bucket with count
1 and expiry `now + interval`, `Allowed` whenever `max_requests ≥ 1`,
and the same decision/output as a request against an empty store. -/
theorem removeKey_then_request_fresh :
    (∀ (m : BucketMap) (k : String),
      runInfallible (InMemoryBackend.removeKey m k) k = none ∧
      (∀ q, q ≠ k → runInfallible (InMemoryBackend.removeKey m k) q = m q)) ∧
    (∀ (instantMax : Nat) (m : BucketMap) (input : SimpleInput) (now : Nat),
      now + input.interval ≤ instantMax →
      ∃ r : RequestResult,
        InMemoryBackend.request instantMax
          (runInfallible (InMemoryBackend.removeKey m input.key)) input now =
          some (Except.ok r) ∧
        r.map input.key = some ⟨now + input.interval, 1⟩ ∧
        r.output.reset = now + input.interval ∧
        r.output.remaining = input.maxRequests - 1 ∧
        (1 ≤ input.maxRequests → r.decision = .Allowed) ∧
        (InMemoryBackend.request instantMax
            (runInfallible (InMemoryBackend.removeKey m input.key)) input now).map
            (fun res => ((runInfallible res).decision, (runInfallible res).output)) =
          (InMemoryBackend.request instantMax emptyBucketMap input now).map
            (fun res => ((runInfallible res).decision, (runInfallible res).output))) := by
  constructor
  · intro m k
    exact ⟨bucketMap_update_same m k none,
      fun q hq => bucketMap_update_other m k none q hq⟩
  · intro iM m input now hrep
    have hmiss : (runInfallible (InMemoryBackend.removeKey m input.key)) input.key =
        none := bucketMap_update_same m input.key none
    have hreq := request_missing iM
      (runInfallible (InMemoryBackend.removeKey m input.key)) input now hrep hmiss
    have hfresh := request_missing iM emptyBucketMap input now hrep rfl
    refine ⟨_, hreq, bucketMap_update_same _ input.key _, rfl, rfl, ?_, ?_⟩
    · intro hmax
      exact (fromAllowed_eq_allowed_iff _).mpr hmax
    · rw [hreq, hfresh]
      rfl

/-- Witness for C8: a key exhausted at count 7 is removed; the next
request is allowed again with a fresh bucket. -/
theorem removeKey_then_request_fresh_witness :
    ∃ r : RequestResult,
      InMemoryBackend.request 100
        (runInfallible (InMemoryBackend.removeKey
          (emptyBucketMap.update "k" (some ⟨10, 7⟩)) "k")) ⟨10, 1, "k"⟩ 0 =
        some (Except.ok r) ∧
      r.map "k" = some ⟨10, 1⟩ ∧
      r.output.reset = 10 ∧
      r.output.remaining = 0 ∧
      (1 ≤ 1 → r.decision = .Allowed) ∧
      (InMemoryBackend.request 100
          (runInfallible (InMemoryBackend.removeKey
            (emptyBucketMap.update "k" (some ⟨10, 7⟩)) "k")) ⟨10, 1, "k"⟩ 0).map
          (fun res => ((runInfallible res).decision, (runInfallible res).output)) =
        (InMemoryBackend.request 100 emptyBucketMap ⟨10, 1, "k"⟩ 0).map
          (fun res => ((runInfallible res).decision, (runInfallible res).output)) := by
  have h := removeKey_then_request_fresh.2 100
    (emptyBucketMap.update "k" (some ⟨10, 7⟩)) ⟨10, 1, "k"⟩ 0 (by decide)
  simpa using h

/-- C9: configuring a zero-length garbage-collection sweep period makes
construction panic (the assertion in `garbage_collector` fires before
any sweep task exists); every positive period builds a backend whose
sweep task carries that period, and a sweep task only ever exists for a
positive period. -/
theorem build_zero_gc_interval_panics :
    InMemoryBackend.build (some 0) = none ∧
    (∀ d : Nat, 0 < d → InMemoryBackend.build (some d) =
      some { map := emptyBucketMap, gcHandle := some ⟨d⟩ }) ∧
    (∀ (d : Nat) (b : InMemoryBackendState),
      InMemoryBackend.build (some d) = some b → 0 < d) := by
  refine ⟨rfl, ?_, ?_⟩
  · intro d hd
    simp only [InMemoryBackend.build, InMemoryBackend.garbageCollector]
    rw [if_pos hd]
    rfl
  · intro d b hb
    rcases Nat.eq_zero_or_pos d with h0 | hpos
    · subst h0
      exact Option.noConfusion hb
    · exact hpos

/-- Witness for C9: the default 600-second period builds successfully. -/
theorem build_zero_gc_interval_panics_witness :
    InMemoryBackend.build (some 600000000000) =
      some { map := emptyBucketMap, gcHandle := some ⟨600000000000⟩ } :=
  build_zero_gc_interval_panics.2.1 600000000000 (by decide)

/-- C10: `InMemoryBackend::request` panics (returns no value at all,
despite the `Infallible` error type) exactly when `now + interval` is
not representable as an instant; whenever it is representable, the call
returns an `Ok` value. -/
theorem request_panics_iff_unrepresentable (instantMax : Nat) (m : BucketMap)
    (input : SimpleInput) (now : Nat) :
    (instantMax < now + input.interval →
      InMemoryBackend.request instantMax m input now = none) ∧
    (now + input.interval ≤ instantMax →
      ∃ r : RequestResult,
        InMemoryBackend.request instantMax m input now = some (Except.ok r)) := by
  constructor
  · intro h
    unfold InMemoryBackend.request instantCheckedAdd
    rw [if_neg (by omega)]
  · intro h
    cases hE : m input.key with
    | none => exact ⟨_, request_missing instantMax m input now h hE⟩
    | some v =>
      by_cases hv : now < v.ttl
      · exact ⟨_, request_active instantMax m input now v h hE hv⟩
      · exact ⟨_, request_expired instantMax m input now v h hE (Nat.not_lt.mp hv)⟩

/-- Witness for C10: with bound 5 an interval of 10 panics; with bound
100 the same request succeeds. -/
theorem request_panics_iff_unrepresentable_witness :
    InMemoryBackend.request 5 emptyBucketMap ⟨10, 1, "k"⟩ 0 = none ∧
    (∃ r : RequestResult,
      InMemoryBackend.request 100 emptyBucketMap ⟨10, 1, "k"⟩ 0 =
        some (Except.ok r)) :=
  ⟨(request_panics_iff_unrepresentable 5 emptyBucketMap ⟨10, 1, "k"⟩ 0).1 (by decide),
   (request_panics_iff_unrepresentable 100 emptyBucketMap ⟨10, 1, "k"⟩ 0).2 (by decide)⟩

/-- C6 counterexample: `"::1"` parses as an IPv6 address that is NOT
IPv4-mapped, yet `ip_key` renders it as the dotted-decimal string
`"0.0.0.1"` — because the code calls `Ipv6Addr::to_ipv4`, which also
converts IPv4-compatible (`::a.b.c.d`) addresses — and not as the
`"::/64"` network the claim requires for every IPv6 address that is not
IPv4-mapped. -/
theorem ipKey_compatible_counterexample :
    parseIpAddr "::1" = some (.V6 ⟨0, 0, 0, 0, 0, 0, 0, 1⟩) ∧
    Ipv6Addr.toIpv4Mapped ⟨0, 0, 0, 0, 0, 0, 0, 1⟩ = none ∧
    ipKey "::1" = Except.ok "0.0.0.1" ∧
    "0.0.0.1" ≠ "::/64" := by decide

theorem ipKeyOfAddr_v6_subnet (v6 : Ipv6Addr) (hv : v6.toIpv4 = none) :
    ipKeyOfAddr (.V6 v6) =
      Ipv6Addr.display ⟨v6.s0, v6.s1, v6.s2, v6.s3, 0, 0, 0, 0⟩ ++ "/64" := by
  simp only [ipKeyOfAddr, hv]

/-- C6 amended: IPv4 addresses and IPv6 addresses convertible by
`to_ipv4` — the IPv4-mapped AND the IPv4-compatible ones — are rendered
in dotted-decimal form; every remaining IPv6 address is grouped by
zeroing its lower 64 bits and rendered as a `/64` network (so addresses
sharing their first four segments share one key); strings that do not
parse as an IP address are a hard `InvalidIpError`. -/
theorem ipKey_normalization (s4 s5 s6 s7 : Nat) (v6 w6 : Ipv6Addr)
    (hv : v6.toIpv4 = none) (hw : w6.toIpv4 = none)
    (h0 : v6.s0 = w6.s0) (h1 : v6.s1 = w6.s1) (h2 : v6.s2 = w6.s2)
    (h3 : v6.s3 = w6.s3)
    (s : String) (hs : parseIpAddr s = none) :
    ipKeyOfAddr (.V6 ⟨0x2a00, 0x1450, 0x4009, 0x081f, s4, s5, s6, s7⟩) =
      "2a00:1450:4009:81f::/64" ∧
    ipKeyOfAddr (.V6 v6) = ipKeyOfAddr (.V6 w6) ∧
    ipKey s = Except.error .InvalidIpError ∧
    ipKey "::ffff:142.250.187.206" = Except.ok "142.250.187.206" ∧
    ipKey "142.250.187.206" = Except.ok "142.250.187.206" ∧
    ipKey "2a00:1450:4009:81f::200e" = Except.ok "2a00:1450:4009:81f::/64" := by
  have htop : (⟨0x2a00, 0x1450, 0x4009, 0x081f, s4, s5, s6, s7⟩ : Ipv6Addr).toIpv4 =
      none := by
    unfold Ipv6Addr.toIpv4
    rw [if_neg]
    intro h
    have h2 : (10752 : Nat) = 0 := h.1
    exact absurd h2 (by decide)
  refine ⟨?_, ?_, ?_, by decide, by decide, by decide⟩
  · rw [ipKeyOfAddr_v6_subnet _ htop]
    show Ipv6Addr.display ⟨0x2a00, 0x1450, 0x4009, 0x081f, 0, 0, 0, 0⟩ ++ "/64" =
      "2a00:1450:4009:81f::/64"
    decide
  · rw [ipKeyOfAddr_v6_subnet v6 hv, ipKeyOfAddr_v6_subnet w6 hw, h0, h1, h2, h3]
  · unfold ipKey
    rw [hs]

/-- Witness for the amended C6: two distinct addresses in
`2a00:1450:4009:81f::/64` share one key, and a malformed string fails. -/
theorem ipKey_normalization_witness :
    ipKeyOfAddr (.V6 ⟨0x2a00, 0x1450, 0x4009, 0x081f, 0, 0, 0, 0x200e⟩) =
      "2a00:1450:4009:81f::/64" ∧
    ipKeyOfAddr (.V6 ⟨0x2a00, 0x1450, 0x4009, 0x081f, 0, 0, 0, 0x200e⟩) =
      ipKeyOfAddr (.V6 ⟨0x2a00, 0x1450, 0x4009, 0x081f, 1, 2, 3, 4⟩) ∧
    ipKey "not an ip" = Except.error .InvalidIpError := by
  have h := ipKey_normalization 0 0 0 0x200e
    ⟨0x2a00, 0x1450, 0x4009, 0x081f, 0, 0, 0, 0x200e⟩
    ⟨0x2a00, 0x1450, 0x4009, 0x081f, 1, 2, 3, 4⟩
    (by decide) (by decide) rfl rfl rfl rfl "not an ip" (by decide)
  exact ⟨h.1, h.2.1, h.2.2.1⟩
